import Mathlib

/-!
Verification of the docuquery RAG service core against its specification.

Shallow embedding of the Python sources:
  * `app/services/chunker.py`   (`chunk_text`)
  * `app/services/cache.py`     (`get_cache_key`)
  * `app/services/qdrant.py`    (`search_similar`)
  * `app/services/rag.py`       (`query_documents`)
  * `app/services/processor.py` (`process_document`)

Python text is modelled as `List Char` (Python string slicing is by code
points), machine words of the hash as `Nat` reduced mod 2^32, Python
exceptions as `Except String`, and the stateful collaborators (Redis cache,
Qdrant client, embedding model, Gemini LLM, SQLAlchemy session) as explicit
data passed in and explicit call/write logs passed out.
-/

namespace DocuQuery

/-! ## Python primitives -/

/-- The characters removed by Python `str.strip()`: the full CPython
whitespace set (`Py_UNICODE_ISSPACE`), i.e. U+0009 to U+000D, the separators
U+001C to U+001F, the space U+0020, U+0085, U+00A0, U+1680, the Unicode
spaces U+2000 to U+200A, the line and paragraph separators U+2028 and
U+2029, U+202F, U+205F and U+3000.  `not text.strip()` is true exactly when
every character of `text` is such a character. -/
def isPySpace (c : Char) : Bool :=
  (9 ≤ c.toNat && c.toNat ≤ 13) || (28 ≤ c.toNat && c.toNat ≤ 31) || c.toNat = 32 ||
  c.toNat = 133 || c.toNat = 160 || c.toNat = 5760 ||
  (8192 ≤ c.toNat && c.toNat ≤ 8202) || c.toNat = 8232 || c.toNat = 8233 ||
  c.toNat = 8239 || c.toNat = 8287 || c.toNat = 12288

/-- Resolve one endpoint of a Python slice `text[a:b]` to an index into the
list: a negative index counts from the end, and the result is clamped to
`[0, n]`. -/
def pyBound (n : Nat) (i : Int) : Nat :=
  (if i < 0 then (n : Int) + i else i).toNat.min n

/-- Python slice `xs[a:b]`. -/
def pySlice (xs : List Char) (a b : Int) : List Char :=
  (xs.take (pyBound xs.length b)).drop (pyBound xs.length a)

/-- Python slice `xs[a:]`. -/
def pyTail (xs : List Char) (a : Int) : List Char :=
  xs.drop (pyBound xs.length a)

/-! ## Chunker (`app/services/chunker.py`, `chunk_text`)

The Python `while l < len_text` loop is embedded with an explicit fuel
argument; `none` means the fuel ran out, i.e. the source loop did not
terminate within that many iterations.  The pointers `l`, `r` are Python
ints and may in principle go negative, hence `Int`. -/

/-- One-to-one embedding of the `while` loop of `chunk_text`:
each iteration does `r += chunk_size`; if `r >= len_text` it appends
`text[l:]` and stops; otherwise it appends `text[l:r]`, then
`r -= overlap; l = r`. -/
def chunkLoop (text : List Char) (chunk_size overlap : Nat) :
    Nat → Int → Int → List (List Char) → Option (List (List Char))
  | 0, _, _, _ => none
  | fuel + 1, l, r, acc =>
    if l < (text.length : Int) then
      if (text.length : Int) ≤ r + (chunk_size : Int) then some (acc ++ [pyTail text l])
      else chunkLoop text chunk_size overlap fuel
        (r + (chunk_size : Int) - (overlap : Int)) (r + (chunk_size : Int) - (overlap : Int))
        (acc ++ [pySlice text l (r + (chunk_size : Int))])
    else some acc

/-- Embeds `chunk_text(text, chunk_size=512, overlap=50)`.  Empty or
whitespace-only text short-circuits to `[]`; otherwise the sliding-window
loop runs from `l = r = 0`.  Fuel `text.length + 1` is enough for every
terminating run (when `overlap < chunk_size` the window advances by at
least one character per iteration), so `none` signals the infinite loop the
source falls into for `overlap ≥ chunk_size` on long enough text. -/
def chunk_text (text : List Char) (chunk_size : Nat := 512) (overlap : Nat := 50) :
    Option (List (List Char)) :=
  if text.all isPySpace then some []
  else chunkLoop text chunk_size overlap (text.length + 1) 0 0 []

/-! ### Characterisation of the terminating runs (`overlap < chunk_size`)

For `overlap < chunk_size` the loop pointers stay non-negative and the
window advances by `chunk_size - overlap ≥ 1` characters per iteration, so
the run is captured by a `Nat`-indexed normal form. -/

/-- Normal form of the loop: the chunk emitted at position `l` is
`text[l : l + chunk_size]` (or the tail `text[l:]` if it reaches the end),
and the next chunk starts at `l + (chunk_size - overlap)`. -/
def chunkList (text : List Char) (chunk_size overlap : Nat) : Nat → Nat → List (List Char)
  | 0, _ => []
  | fuel + 1, l =>
    if text.length ≤ l + chunk_size then [text.drop l]
    else (text.drop l).take chunk_size ::
      chunkList text chunk_size overlap fuel (l + (chunk_size - overlap))

lemma pyBound_coe (n l : Nat) : pyBound n (l : Int) = min l n := by
  simp only [pyBound]
  rw [if_neg (by omega)]
  show min ((l : Int)).toNat n = min l n
  omega

lemma pyTail_coe (xs : List Char) (l : Nat) : pyTail xs (l : Int) = xs.drop l := by
  rcases Nat.le_total l xs.length with h | h
  · simp [pyTail, pyBound_coe, Nat.min_eq_left h]
  · simp [pyTail, pyBound_coe, Nat.min_eq_right h,
      List.drop_eq_nil_of_le h, List.drop_eq_nil_of_le (Nat.le_refl _)]

lemma pySlice_coe (xs : List Char) (l r : Nat) (hr : r ≤ xs.length) :
    pySlice xs (l : Int) (r : Int) = (xs.drop l).take (r - l) := by
  rcases Nat.le_total l xs.length with h | h
  · simp [pySlice, pyBound_coe, Nat.min_eq_left hr, Nat.min_eq_left h, List.drop_take]
  · have h1 : xs.drop l = [] := List.drop_eq_nil_of_le h
    have h2 : List.drop xs.length (List.take r xs) = [] :=
      List.drop_eq_nil_of_le (by rw [List.length_take]; omega)
    simp [pySlice, pyBound_coe, Nat.min_eq_left hr, Nat.min_eq_right h, h1, h2]

/-- On every input where the loop is entered with `l = r` pointing inside
the text and enough fuel, the `Int`-pointer loop of the source computes the
`Nat` normal form. -/
lemma chunkLoop_eq_chunkList (text : List Char) (chunk_size overlap : Nat)
    (hov : overlap < chunk_size) :
    ∀ fuel (l : Nat) (acc : List (List Char)), l < text.length →
      text.length - l ≤ fuel →
      chunkLoop text chunk_size overlap fuel (l : Int) (l : Int) acc =
        some (acc ++ chunkList text chunk_size overlap fuel l) := by
  intro fuel
  induction fuel with
  | zero => intro l acc hl hfuel; omega
  | succ fuel ih =>
    intro l acc hl hfuel
    have hlI : ((l : Int) < (text.length : Int)) := by exact_mod_cast hl
    have hcast : ((l : Int) + (chunk_size : Int)) = ((l + chunk_size : Nat) : Int) := by
      push_cast; ring
    by_cases hc : text.length ≤ l + chunk_size
    · have hc' : ((text.length : Int) ≤ (l : Int) + (chunk_size : Int)) := by
        rw [hcast]; exact_mod_cast hc
      simp only [chunkLoop, chunkList]
      rw [if_pos hlI, if_pos hc', if_pos hc, pyTail_coe]
    · have hc' : ¬ ((text.length : Int) ≤ (l : Int) + (chunk_size : Int)) := by
        rw [hcast]; exact_mod_cast hc
      have hstep : ((l : Int) + (chunk_size : Int) - (overlap : Int)) =
          ((l + (chunk_size - overlap) : Nat) : Int) := by push_cast; omega
      have hslice : pySlice text (l : Int) ((l : Int) + (chunk_size : Int)) =
          (text.drop l).take chunk_size := by
        rw [hcast, pySlice_coe text l (l + chunk_size) (by omega)]
        congr 1
        omega
      simp only [chunkLoop, chunkList]
      rw [if_pos hlI, if_neg hc', if_neg hc, hstep, hslice,
        ih (l + (chunk_size - overlap)) (acc ++ [(text.drop l).take chunk_size])
          (by omega) (by omega)]
      simp

/-- For `overlap < chunk_size` on non-degenerate text, `chunk_text`
terminates and computes the normal form. -/
lemma chunk_text_eq_chunkList (text : List Char) (chunk_size overlap : Nat)
    (hov : overlap < chunk_size) (hsp : text.all isPySpace = false) :
    chunk_text text chunk_size overlap =
      some (chunkList text chunk_size overlap (text.length + 1) 0) := by
  have hne : text ≠ [] := by rintro rfl; simp at hsp
  have hlen : 0 < text.length := List.length_pos.mpr hne
  have h0 : ((0 : Nat) : Int) = (0 : Int) := rfl
  rw [chunk_text, if_neg (by simp [hsp]), ← h0,
    chunkLoop_eq_chunkList text chunk_size overlap hov (text.length + 1) 0 [] hlen (by omega)]
  simp

/-! ### Properties of the normal form -/

lemma chunkList_ne_nil (text : List Char) (chunk_size overlap : Nat) :
    ∀ fuel l, l < text.length → text.length - l ≤ fuel →
      chunkList text chunk_size overlap fuel l ≠ [] := by
  intro fuel l hl hfuel
  cases fuel with
  | zero => omega
  | succ fuel =>
    simp only [chunkList]
    split <;> simp

lemma getLastD_cons_of_ne_nil {α : Type} (a d : α) {l : List α} (h : l ≠ []) :
    (a :: l).getLastD d = l.getLastD d := by
  cases l with
  | nil => simp at h
  | cons b m => simp [List.getLastD_cons]

lemma dropLast_cons_of_ne_nil {α : Type} (a : α) {l : List α} (h : l ≠ []) :
    (a :: l).dropLast = a :: l.dropLast := by
  cases l with
  | nil => simp at h
  | cons b m => simp

lemma flatten_dropLast_append_getLastD {α : Type} :
    ∀ (l : List (List α)), l ≠ [] → l.dropLast.flatten ++ l.getLastD [] = l.flatten := by
  intro l
  induction l with
  | nil => intro h; simp at h
  | cons a m ih =>
    intro _
    cases m with
    | nil => simp
    | cons b k =>
      rw [dropLast_cons_of_ne_nil a (by simp), getLastD_cons_of_ne_nil a [] (by simp),
        List.flatten_cons, List.flatten_cons, List.append_assoc, ih (by simp)]

/-- Coverage with no gaps: every chunk except the last, with its trailing
`overlap` characters removed, concatenated with the final chunk, rebuilds
the tail of the text the window started from. -/
lemma chunkList_cover (text : List Char) (chunk_size overlap : Nat)
    (hov : overlap < chunk_size) :
    ∀ fuel l, l < text.length → text.length - l ≤ fuel →
      ((chunkList text chunk_size overlap fuel l).dropLast.map
          (fun c => c.take (c.length - overlap))).flatten ++
        (chunkList text chunk_size overlap fuel l).getLastD [] = text.drop l := by
  intro fuel
  induction fuel with
  | zero => intro l hl hfuel; omega
  | succ fuel ih =>
    intro l hl hfuel
    by_cases hc : text.length ≤ l + chunk_size
    · simp [chunkList, if_pos hc]
    · simp only [chunkList, if_neg hc]
      have hne : chunkList text chunk_size overlap fuel (l + (chunk_size - overlap)) ≠ [] :=
        chunkList_ne_nil text chunk_size overlap fuel _ (by omega) (by omega)
      rw [dropLast_cons_of_ne_nil _ hne, getLastD_cons_of_ne_nil _ [] hne, List.map_cons,
        List.flatten_cons, List.append_assoc, ih (l + (chunk_size - overlap)) (by omega) (by omega)]
      have hclen : ((text.drop l).take chunk_size).length = chunk_size := by
        rw [List.length_take, List.length_drop]; omega
      rw [hclen, List.take_take, Nat.min_eq_left (by omega), ← List.drop_drop,
        List.take_append_drop]

/-- The first chunk of the normal form starts with the `overlap` characters
at the window position. -/
lemma chunkList_getD_zero_take (text : List Char) (chunk_size overlap : Nat)
    (hov : overlap ≤ chunk_size) :
    ∀ fuel l, l < text.length → text.length - l ≤ fuel →
      ((chunkList text chunk_size overlap fuel l).getD 0 []).take overlap =
        (text.drop l).take overlap := by
  intro fuel l hl hfuel
  cases fuel with
  | zero => omega
  | succ fuel =>
    simp only [chunkList]
    split
    · simp
    · simp [List.take_take, Nat.min_eq_left hov]

/-- Exact-overlap sharing: each chunk's trailing `overlap` characters are
the next chunk's leading `overlap` characters. -/
lemma chunkList_overlap (text : List Char) (chunk_size overlap : Nat)
    (hov : overlap < chunk_size) :
    ∀ fuel l i, l < text.length → text.length - l ≤ fuel →
      i + 1 < (chunkList text chunk_size overlap fuel l).length →
      ((chunkList text chunk_size overlap fuel l).getD i []).drop
          (((chunkList text chunk_size overlap fuel l).getD i []).length - overlap) =
        ((chunkList text chunk_size overlap fuel l).getD (i + 1) []).take overlap := by
  intro fuel
  induction fuel with
  | zero => intro l i hl hfuel; omega
  | succ fuel ih =>
    intro l i hl hfuel hlen
    by_cases hc : text.length ≤ l + chunk_size
    · rw [chunkList, if_pos hc] at hlen
      simp at hlen
    · simp only [chunkList, if_neg hc] at hlen ⊢
      cases i with
      | zero =>
        simp only [List.getD_cons_zero, List.getD_cons_succ]
        have hclen : ((text.drop l).take chunk_size).length = chunk_size := by
          rw [List.length_take, List.length_drop]; omega
        rw [hclen, chunkList_getD_zero_take text chunk_size overlap (by omega) fuel
          (l + (chunk_size - overlap)) (by omega) (by omega), List.drop_take, List.drop_drop]
        congr 1
        omega
      | succ i =>
        simp only [List.getD_cons_succ]
        exact ih (l + (chunk_size - overlap)) i (by omega) (by omega) (by simpa using hlen)

/-- The shape of the chunk lengths, as a directly computable list. -/
def lengthsList (n chunk_size overlap : Nat) : Nat → Nat → List Nat
  | 0, _ => []
  | fuel + 1, l =>
    if n ≤ l + chunk_size then [n - l]
    else chunk_size :: lengthsList n chunk_size overlap fuel (l + (chunk_size - overlap))

lemma chunkList_map_length (text : List Char) (chunk_size overlap : Nat) :
    ∀ fuel l, (chunkList text chunk_size overlap fuel l).map List.length =
      lengthsList text.length chunk_size overlap fuel l := by
  intro fuel
  induction fuel with
  | zero => intro l; simp [chunkList, lengthsList]
  | succ fuel ih =>
    intro l
    by_cases hc : text.length ≤ l + chunk_size
    · simp [chunkList, lengthsList, if_pos hc]
    · simp only [chunkList, lengthsList, if_neg hc, List.map_cons]
      rw [ih]
      congr 1
      rw [List.length_take, List.length_drop]
      omega

/-! ### Claim theorems about the chunker -/

/-- C1: the source has no `overlap < chunk_size` validation at all.  At
`chunk_size = overlap = 100` on a 200-character text the window never
advances: the loop re-enters with the same pointers for every fuel bound,
i.e. the Python loop runs forever instead of raising `InvalidParameter`.
And on text no longer than `chunk_size` (the repository's own
`test_chunk_size_equals_overlap` input) the call returns a chunk list
normally, again without any error. -/
theorem chunker_missing_invalid_parameter_check :
    (∀ fuel acc, chunkLoop (List.replicate 200 'a') 100 100 fuel 0 0 acc = none) ∧
    chunk_text (List.replicate 200 'a') 100 100 = none ∧
    chunk_text "some text".data 10 10 = some ["some text".data] := by
  have hloop : ∀ fuel acc, chunkLoop (List.replicate 200 'a') 100 100 fuel 0 0 acc = none := by
    intro fuel
    induction fuel with
    | zero => intro acc; rfl
    | succ fuel ih =>
      intro acc
      simp only [chunkLoop, List.length_replicate]
      rw [if_pos (by norm_num), if_neg (by norm_num)]
      have h2 : ((0 : Int) + ((100 : Nat) : Int) - ((100 : Nat) : Int)) = 0 := by
        omega
      rw [h2]
      exact ih _
  refine ⟨hloop, ?_, by decide⟩
  rw [chunk_text, if_neg (by decide)]
  exact hloop _ []

/-- C5 (counterexample): chunking a 1000-character text with
`chunk_size = 100, overlap = 10` yields 11 chunks, not 12: when the
residual tail has exactly `chunk_size` characters left it is emitted whole
as the final chunk, so no shorter 12th chunk ever appears. -/
theorem chunk_1000_gives_eleven_chunks :
    (chunk_text (List.replicate 1000 'a') 100 10).map List.length = some 11 ∧
    (chunk_text (List.replicate 1000 'a') 100 10).map List.length ≠ some 12 := by
  have hsp : (List.replicate 1000 'a').all isPySpace = false := by decide
  have heq := chunk_text_eq_chunkList (List.replicate 1000 'a') 100 10 (by omega) hsp
  have hL : (chunkList (List.replicate 1000 'a') 100 10
      ((List.replicate 1000 'a').length + 1) 0).length = 11 := by
    have h := congrArg List.length
      (chunkList_map_length (List.replicate 1000 'a') 100 10
        ((List.replicate 1000 'a').length + 1) 0)
    rw [List.length_map] at h
    rw [h, List.length_replicate]
    decide
  rw [heq]
  constructor
  · rw [Option.map_some', hL]
  · rw [Option.map_some', hL]
    decide

/-- C5 (amended): chunking any 1000-character, non-whitespace-only text
with `chunk_size = 100, overlap = 10` yields exactly 11 chunks, every one
of length 100 (the last is not shorter), and the last 10 characters of the
first chunk equal the first 10 characters of the second chunk. -/
theorem chunk_1000_shape (text : List Char) (hlen : text.length = 1000)
    (hsp : text.all isPySpace = false) :
    ∃ cl, chunk_text text 100 10 = some cl ∧
      cl.map List.length = List.replicate 11 100 ∧
      (cl.getD 0 []).drop ((cl.getD 0 []).length - 10) = (cl.getD 1 []).take 10 := by
  refine ⟨_, chunk_text_eq_chunkList text 100 10 (by omega) hsp, ?_, ?_⟩
  · rw [chunkList_map_length, hlen]
    decide
  · have hL : (chunkList text 100 10 (text.length + 1) 0).length = 11 := by
      have h := congrArg List.length (chunkList_map_length text 100 10 (text.length + 1) 0)
      rw [List.length_map] at h
      rw [h, hlen]
      decide
    exact chunkList_overlap text 100 10 (by omega) (text.length + 1) 0 0 (by omega) (by omega)
      (by omega)

/-- Witness for C5's amended theorem at a concrete 1000-character text. -/
theorem chunk_1000_shape_witness :
    ∃ cl, chunk_text (List.replicate 1000 'b') 100 10 = some cl ∧
      cl.map List.length = List.replicate 11 100 ∧
      (cl.getD 0 []).drop ((cl.getD 0 []).length - 10) = (cl.getD 1 []).take 10 :=
  chunk_1000_shape (List.replicate 1000 'b') (by rw [List.length_replicate]) (by decide)

/-- C6: for every non-whitespace-only text and `overlap < chunk_size` the
chunker terminates with a non-empty chunk list such that (i) removing each
non-final chunk's trailing `overlap` characters and concatenating with the
final chunk rebuilds the text exactly (full coverage, no gaps), (ii) for
`overlap = 0` plain concatenation rebuilds the text, and (iii) each chunk's
trailing `overlap` characters equal the next chunk's leading `overlap`
characters. -/
theorem chunker_cover_and_overlap (text : List Char) (chunk_size overlap : Nat)
    (hsp : text.all isPySpace = false) (hov : overlap < chunk_size) :
    ∃ cl, chunk_text text chunk_size overlap = some cl ∧ cl ≠ [] ∧
      (cl.dropLast.map (fun c => c.take (c.length - overlap))).flatten ++
        cl.getLastD [] = text ∧
      (overlap = 0 → cl.flatten = text) ∧
      ∀ i, i + 1 < cl.length →
        (cl.getD i []).drop ((cl.getD i []).length - overlap) =
          (cl.getD (i + 1) []).take overlap := by
  have hne : text ≠ [] := by rintro rfl; simp at hsp
  have hlen : 0 < text.length := List.length_pos.mpr hne
  have hcover := chunkList_cover text chunk_size overlap hov (text.length + 1) 0 hlen (by omega)
  rw [List.drop_zero] at hcover
  refine ⟨_, chunk_text_eq_chunkList text chunk_size overlap hov hsp,
    chunkList_ne_nil text chunk_size overlap (text.length + 1) 0 hlen (by omega), hcover,
    ?_, fun i hi => chunkList_overlap text chunk_size overlap hov (text.length + 1) 0 i hlen
      (by omega) hi⟩
  rintro rfl
  simp only [Nat.sub_zero, List.take_length] at hcover
  rw [show (fun c : List Char => c) = id from rfl, List.map_id,
    flatten_dropLast_append_getLastD _
      (chunkList_ne_nil text chunk_size 0 (text.length + 1) 0 hlen (by omega))] at hcover
  exact hcover

/-- Witness for C6 at a concrete text and parameters. -/
theorem chunker_cover_and_overlap_witness :
    ∃ cl, chunk_text "abcde".data 2 1 = some cl ∧ cl ≠ [] ∧
      (cl.dropLast.map (fun c => c.take (c.length - 1))).flatten ++
        cl.getLastD [] = "abcde".data ∧
      ((1 : Nat) = 0 → cl.flatten = "abcde".data) ∧
      ∀ i, i + 1 < cl.length →
        (cl.getD i []).drop ((cl.getD i []).length - 1) = (cl.getD (i + 1) []).take 1 :=
  chunker_cover_and_overlap "abcde".data 2 1 (by decide) (by decide)

/-! ## Vector index (`app/services/qdrant.py`, `search_similar`)

The Qdrant client is an external collaborator; its documented query
semantics are modelled here: `query_points` returns at most `limit` stored
points that satisfy the filter, ordered by descending similarity score.  A
stored point carries the score the engine assigns it for the query
embedding at hand, together with the payload written by
`store_embeddings` (`document_id`, `chunk_index`, `text`). -/

structure QPoint where
  score : Rat
  document_id : String
  chunk_index : Nat
  text : String
deriving DecidableEq

/-- Embeds `FieldCondition(key=..., match=MatchValue(value=...))`. -/
structure FieldCondition where
  key : String
  value : String
deriving DecidableEq

/-- Qdrant `Filter(must=[...])`: a conjunction — a point matches only if it
satisfies every listed condition simultaneously. -/
structure MustFilter where
  must : List FieldCondition
deriving DecidableEq

/-- Payload lookup on a stored point.  The payloads written by this
repository have exactly one string-valued key, `document_id`, and that is
the only key the source's filters ever target. -/
def payloadGet (p : QPoint) (key : String) : Option String :=
  if key = "document_id" then some p.document_id else none

def matchesCondition (p : QPoint) (c : FieldCondition) : Bool :=
  match payloadGet p c.key with
  | some v => v == c.value
  | none => false

def matchesFilter (p : QPoint) : Option MustFilter → Bool
  | none => true
  | some f => f.must.all (matchesCondition p)

instance : DecidableRel (fun a b : QPoint => b.score ≤ a.score) :=
  fun a b => inferInstanceAs (Decidable (b.score ≤ a.score))

/-- Qdrant-side search: keep the points satisfying the filter, order by
descending score, and truncate to `limit`. -/
def query_points (pts : List QPoint) (limit : Nat) (query_filter : Option MustFilter) :
    List QPoint :=
  ((pts.filter (fun p => matchesFilter p query_filter)).insertionSort
      (fun a b => b.score ≤ a.score)).take limit

/-- The Qdrant server state: collections by name. -/
abbrev Store := List (String × List QPoint)

/-- Embeds `get_collection_name(tenant_id)`. -/
def get_collection_name (tenant_id : String) : String := "tenant_" ++ tenant_id

/-- Python truthiness of the `document_ids` argument (`if document_ids:`):
`None` and the empty list are both falsy. -/
def documentIdsTruthy : Option (List String) → Bool
  | none => false
  | some [] => false
  | some (_ :: _) => true

/-- Embeds `search_similar(tenant_id, query_embedding, top_k=5, document_ids=None)`.
The query embedding is abstracted into the stored per-point scores (see
`QPoint`).  The collection-existence check, the filter construction (one
`must` condition per supplied document id) and the per-hit result
formatting (the identity on the model's four fields) follow the source
line by line. -/
def search_similar (store : Store) (tenant_id : String) (top_k : Nat := 5)
    (document_ids : Option (List String) := none) : List QPoint :=
  match store.lookup (get_collection_name tenant_id) with
  | none => []
  | some pts =>
      query_points pts top_k
        (if documentIdsTruthy document_ids then
          some (MustFilter.mk ((document_ids.getD []).map
            (fun doc_id => FieldCondition.mk "document_id" doc_id)))
        else none)

/-- Restriction by membership, modelled from the spec's words ("restrict
results to points whose payload `document_id` is in that set") for
comparison with the source's conjunctive filter. -/
def search_similar_memberspec (store : Store) (tenant_id : String) (top_k : Nat)
    (document_ids : List String) : List QPoint :=
  match store.lookup (get_collection_name tenant_id) with
  | none => []
  | some pts =>
      ((pts.filter (fun p => document_ids.contains p.document_id)).insertionSort
          (fun a b => b.score ≤ a.score)).take top_k

def pointA : QPoint := { score := 2, document_id := "doc-a", chunk_index := 0, text := "alpha" }

def pointB : QPoint := { score := 1, document_id := "doc-b", chunk_index := 0, text := "beta" }

def twoDocStore : Store := [("tenant_t1", [pointA, pointB])]

/-- C2: the source builds `Filter(must=[FieldCondition(document_id=d) for d
in document_ids])` — a conjunction demanding simultaneous equality of the
single `document_id` payload key to every supplied id.  On a collection
holding one point of `doc-a` and one of `doc-b`, a search restricted to
`["doc-a", "doc-b"]` therefore returns nothing at all, while the specified
membership semantics returns both points; only singleton id-sets behave as
specified. -/
theorem search_similar_must_is_conjunction :
    search_similar twoDocStore "t1" 5 (some ["doc-a", "doc-b"]) = [] ∧
    search_similar_memberspec twoDocStore "t1" 5 ["doc-a", "doc-b"] = [pointA, pointB] ∧
    search_similar twoDocStore "t1" 5 (some ["doc-a"]) = [pointA] :=
  ⟨by decide, by decide, by decide⟩

/-- C10: the empty `document_ids` list is falsy in Python, so
`document_ids=[]` applies no filter and the search is exactly the
unrestricted `document_ids=None` search over the tenant's collection. -/
theorem search_similar_empty_ids_unrestricted (store : Store) (tenant_id : String)
    (top_k : Nat) (pts : List QPoint)
    (hex : store.lookup (get_collection_name tenant_id) = some pts) :
    search_similar store tenant_id top_k (some []) =
      search_similar store tenant_id top_k none := by
  simp [search_similar, hex, documentIdsTruthy]

/-- Witness for C10 on a concrete store: the shared result is non-empty,
not the empty result set. -/
theorem search_similar_empty_ids_unrestricted_witness :
    search_similar twoDocStore "t1" 5 (some []) = search_similar twoDocStore "t1" 5 none ∧
    search_similar twoDocStore "t1" 5 none ≠ [] :=
  ⟨search_similar_empty_ids_unrestricted twoDocStore "t1" 5 [pointA, pointB] (by decide),
    by decide⟩

/-! ## RAG orchestrator (`app/services/rag.py`, `query_documents`)

The four collaborators (Redis cache read, embedding model, vector search,
Gemini generation) are passed in as functions; `generate_answer` may raise,
modelled as `Except`.  The answer payload is a record of the three keys the
orchestrator builds (`answer`, `sources`, `cached`); such a dict is
non-empty, so Python's `if cached:` truthiness test on a stored payload
coincides with the `Option` match.  The returned `RagLog` records the
observable effects: how many times each collaborator ran and which payloads
were written to the cache. -/

structure Payload where
  answer : String
  sources : List QPoint
  cached : Bool
deriving DecidableEq

structure RagLog where
  embed_calls : Nat
  search_calls : Nat
  gen_calls : Nat
  cache_writes : List Payload
deriving DecidableEq

structure Collab where
  get_cached_answer : String → String → Option Payload
  generate_embedding : String → List Rat
  search_similar_fn : String → List Rat → Option (List String) → List QPoint
  generate_answer : List String → String → Except String String

/-- The `for i in range(len(results))` loop that renders the fallback
answer body: one bracketed-index line, then the chunk text, then a newline,
per search result. -/
def fallbackLines : Nat → List QPoint → String
  | _, [] => ""
  | i, r :: rs => "[" ++ toString (i + 1) ++ "] " ++ r.text ++ "\n" ++ fallbackLines (i + 1) rs

def noDocsAnswer : String := "No relevant documents found. Please upload documents first."

def llmUnavailableHeader : String := "LLM unavailable. Here are the most relevant chunks:\n"

/-- Embeds `query_documents(tenant_id, question, document_ids=None)`. -/
def query_documents (c : Collab) (tenant_id question : String)
    (document_ids : Option (List String) := none) : Payload × RagLog :=
  match c.get_cached_answer tenant_id question with
  | some hit =>
      ({ hit with cached := true },
       { embed_calls := 0, search_calls := 0, gen_calls := 0, cache_writes := [] })
  | none =>
      let question_embedding := c.generate_embedding question
      let results := c.search_similar_fn tenant_id question_embedding document_ids
      let chunks := results.map (fun r => r.text)
      if chunks.isEmpty then
        ({ answer := noDocsAnswer, sources := [], cached := false },
         { embed_calls := 1, search_calls := 1, gen_calls := 0, cache_writes := [] })
      else
        match c.generate_answer chunks question with
        | .error _ =>
            ({ answer := llmUnavailableHeader ++ fallbackLines 0 results,
               sources := results, cached := false },
             { embed_calls := 1, search_calls := 1, gen_calls := 1, cache_writes := [] })
        | .ok answer =>
            ({ answer := answer, sources := results, cached := false },
             { embed_calls := 1, search_calls := 1, gen_calls := 1,
               cache_writes := [{ answer := answer, sources := results, cached := false }] })

/-- C3: a cache hit returns the stored payload with `cached := true` and
performs no collaborator work at all: no embedding, no vector search, no
generation, no cache write. -/
theorem rag_cache_hit_short_circuits (c : Collab) (tenant_id question : String)
    (document_ids : Option (List String)) (hit : Payload)
    (h : c.get_cached_answer tenant_id question = some hit) :
    query_documents c tenant_id question document_ids =
      ({ hit with cached := true },
       { embed_calls := 0, search_calls := 0, gen_calls := 0, cache_writes := [] }) := by
  rw [query_documents, h]

def demoHit : Payload := { answer := "Mars is the fourth planet [1].", sources := [pointA], cached := false }

def collabHit : Collab :=
  { get_cached_answer := fun _ _ => some demoHit
    generate_embedding := fun _ => [1]
    search_similar_fn := fun _ _ _ => [pointA]
    generate_answer := fun _ _ => .ok "unused" }

/-- Witness for C3 on a concrete collaborator environment. -/
theorem rag_cache_hit_short_circuits_witness :
    query_documents collabHit "tenant-123" "What is Mars?" none =
      ({ demoHit with cached := true },
       { embed_calls := 0, search_calls := 0, gen_calls := 0, cache_writes := [] }) :=
  rag_cache_hit_short_circuits collabHit "tenant-123" "What is Mars?" none demoHit rfl

/-- Every source is rendered in the fallback body with its 1-based
citation marker. -/
lemma fallbackLines_renders_each (dflt : QPoint) :
    ∀ (rs : List QPoint) (j i : Nat), i < rs.length →
      ∃ s t, fallbackLines j rs =
        s ++ ("[" ++ toString (j + i + 1) ++ "] " ++ (rs.getD i dflt).text ++ "\n") ++ t := by
  intro rs
  induction rs with
  | nil => intro j i hi; simp at hi
  | cons r rs ih =>
    intro j i hi
    cases i with
    | zero =>
      refine ⟨"", fallbackLines (j + 1) rs, ?_⟩
      simp [fallbackLines, String.append_assoc]
    | succ i =>
      obtain ⟨s, t, hs⟩ := ih (j + 1) i (by simpa using hi)
      refine ⟨"[" ++ toString (j + 1) ++ "] " ++ r.text ++ "\n" ++ s, t, ?_⟩
      have harith : j + 1 + i + 1 = j + (i + 1) + 1 := by omega
      rw [fallbackLines, hs, harith]
      simp [String.append_assoc, List.getD_cons_succ]

/-- C4: on a cache miss whose search returns chunks and whose generation
raises, the orchestrator degrades: the answer is the fixed prefix followed
by the rendering loop's output, every source appears in it with its
1-based citation marker, the sources are the search results, `cached` is
false, and nothing is written to the cache. -/
theorem rag_generator_failure_degrades (c : Collab) (tenant_id question : String)
    (document_ids : Option (List String)) (results : List QPoint) (e : String)
    (hmiss : c.get_cached_answer tenant_id question = none)
    (hres : c.search_similar_fn tenant_id (c.generate_embedding question) document_ids = results)
    (hne : results ≠ [])
    (hgen : c.generate_answer (results.map (fun r => r.text)) question = .error e) :
    (query_documents c tenant_id question document_ids).1.answer =
        llmUnavailableHeader ++ fallbackLines 0 results ∧
    (∀ i, i < results.length → ∃ s t,
      (query_documents c tenant_id question document_ids).1.answer =
        (llmUnavailableHeader ++ s) ++
          ("[" ++ toString (i + 1) ++ "] " ++ (results.getD i pointA).text ++ "\n") ++ t) ∧
    (query_documents c tenant_id question document_ids).1.sources = results ∧
    (query_documents c tenant_id question document_ids).1.cached = false ∧
    (query_documents c tenant_id question document_ids).2.cache_writes = [] := by
  have hchunks : (results.map (fun r => r.text)).isEmpty = false := by
    cases results with
    | nil => exact absurd rfl hne
    | cons a l => simp
  have hq : query_documents c tenant_id question document_ids =
      ({ answer := llmUnavailableHeader ++ fallbackLines 0 results,
         sources := results, cached := false },
       { embed_calls := 1, search_calls := 1, gen_calls := 1, cache_writes := [] }) := by
    rw [query_documents, hmiss]
    simp only [hres, hchunks, Bool.false_eq_true, if_false, hgen]
  refine ⟨by rw [hq], ?_, by rw [hq], by rw [hq], by rw [hq]⟩
  intro i hi
  obtain ⟨s, t, hs⟩ := fallbackLines_renders_each pointA results 0 i hi
  refine ⟨s, t, ?_⟩
  rw [hq]
  simp only []
  rw [hs]
  simp [String.append_assoc]

def collabGenFails : Collab :=
  { get_cached_answer := fun _ _ => none
    generate_embedding := fun _ => [1]
    search_similar_fn := fun _ _ _ => [pointA, pointB]
    generate_answer := fun _ _ => .error "quota exceeded" }

/-- Witness for C4 on a concrete collaborator environment with two search
results and a failing generator. -/
theorem rag_generator_failure_degrades_witness :
    (query_documents collabGenFails "t1" "q" none).1.answer =
        llmUnavailableHeader ++ fallbackLines 0 [pointA, pointB] ∧
    (∀ i, i < [pointA, pointB].length → ∃ s t,
      (query_documents collabGenFails "t1" "q" none).1.answer =
        (llmUnavailableHeader ++ s) ++
          ("[" ++ toString (i + 1) ++ "] " ++ ([pointA, pointB].getD i pointA).text ++ "\n") ++ t) ∧
    (query_documents collabGenFails "t1" "q" none).1.sources = [pointA, pointB] ∧
    (query_documents collabGenFails "t1" "q" none).1.cached = false ∧
    (query_documents collabGenFails "t1" "q" none).2.cache_writes = [] :=
  rag_generator_failure_degrades collabGenFails "t1" "q" none [pointA, pointB]
    "quota exceeded" rfl rfl (by decide) rfl

/-- C8: on a cache miss whose search returns zero chunks, the orchestrator
returns the fixed no-documents message with empty sources and
`cached := false`; the generator is never invoked (`gen_calls = 0`) and
nothing is written to the cache. -/
theorem rag_no_chunks_short_answer (c : Collab) (tenant_id question : String)
    (document_ids : Option (List String))
    (hmiss : c.get_cached_answer tenant_id question = none)
    (hres : c.search_similar_fn tenant_id (c.generate_embedding question) document_ids = []) :
    query_documents c tenant_id question document_ids =
      ({ answer := noDocsAnswer, sources := [], cached := false },
       { embed_calls := 1, search_calls := 1, gen_calls := 0, cache_writes := [] }) := by
  rw [query_documents, hmiss]
  simp only [hres, List.map_nil, List.isEmpty_nil, if_true]

def collabNoResults : Collab :=
  { get_cached_answer := fun _ _ => none
    generate_embedding := fun _ => [1]
    search_similar_fn := fun _ _ _ => []
    generate_answer := fun _ _ => .ok "unused" }

/-- Witness for C8 on a concrete collaborator environment. -/
theorem rag_no_chunks_short_answer_witness :
    query_documents collabNoResults "t1" "Random question" none =
      ({ answer := noDocsAnswer, sources := [], cached := false },
       { embed_calls := 1, search_calls := 1, gen_calls := 0, cache_writes := [] }) :=
  rag_no_chunks_short_answer collabNoResults "t1" "Random question" none rfl rfl

/-! ## Document processor (`app/services/processor.py`, `process_document`)

The database session is modelled by threading the one document row the
function touches; the collaborators (text extractor, embedding model,
Qdrant upsert) are functions that may raise, modelled as `Except String`
carrying `str(e)`; `datetime.utcnow()` is the environment's `now`.  The
`try/except Exception` boundary becomes the explicit `failDoc` outcome:
the embedding is a total function, mirroring that `process_document`
returns a flag instead of raising. -/

structure PDoc where
  id : String
  tenant_id : String
  file_path : String
  status : String
  chunks_count : Nat
  processed_at : Option Nat
  error_message : Option String
deriving DecidableEq

structure ProcEnv where
  extract_text : String → Except String String
  generate_embeddings : List String → Except String (List (List Rat))
  store_embeddings : String → String → List String → List (List Rat) → Except String Unit
  now : Nat

/-- Python `str(e)[:1000]` (slicing is by characters). -/
def truncate1000 (e : String) : String := String.mk (e.data.take 1000)

/-- The `except Exception as e:` block: set status `failed`, store
`str(e)[:1000]`, set `processed_at` to now, commit, and return `False`. -/
def failDoc (d : PDoc) (e : String) (now : Nat) : Bool × Option PDoc :=
  (false, some { d with status := "failed",
                        error_message := some (truncate1000 e),
                        processed_at := some now })

/-- The chunk list built in step 3: `chunk_text(text, chunk_size=512,
overlap=50)` (converted from the model's character lists to strings). -/
def docChunks (text : String) : List String :=
  ((chunk_text text.data 512 50).getD []).map (fun c => String.mk c)

/-- Embeds `process_document(document_id, db)`.  `found` is the result of the
initial `SELECT` by id.  The chunker is the embedded `chunk_text` with the
source's fixed configuration 512/50; since `50 < 512` it always terminates
(`chunk_text_eq_chunkList`), so the `.getD []` default is never taken. -/
def process_document (env : ProcEnv) (found : Option PDoc) : Bool × Option PDoc :=
  match found with
  | none => (false, none)
  | some doc0 =>
    let document : PDoc := { doc0 with status := "processing" }
    match env.extract_text document.file_path with
    | .error e => failDoc document e env.now
    | .ok text =>
      if text.data.all isPySpace then
        failDoc document "No text could be extracted from document" env.now
      else
        let chunks := docChunks text
        if chunks.isEmpty then failDoc document "No chunks generated from text" env.now
        else
          match env.generate_embeddings chunks with
          | .error e => failDoc document e env.now
          | .ok embeddings =>
            match env.store_embeddings document.tenant_id document.id chunks embeddings with
            | .error e => failDoc document e env.now
            | .ok _ =>
              (true, some { document with status := "ready",
                                          chunks_count := chunks.length,
                                          processed_at := some env.now,
                                          error_message := none })

lemma failDoc_eq (d : PDoc) (e : String) (now : Nat) (res : Option PDoc)
    (h : failDoc d e now = (false, res)) :
    res = some { d with status := "failed", error_message := some (truncate1000 e), processed_at := some now } := by
  have h2 := congrArg Prod.snd h
  simpa [failDoc] using h2.symm

lemma truncate1000_length (e : String) : (truncate1000 e).length ≤ 1000 := by
  have hlen : (truncate1000 e).length = (e.data.take 1000).length := rfl
  rw [hlen, List.length_take]
  exact Nat.min_le_left _ _

lemma truncate1000_ne_empty (e : String) (h : e ≠ "") : truncate1000 e ≠ "" := by
  intro hmk
  apply h
  have hdata : e.data.take 1000 = [] := congrArg String.data hmk
  cases hd : e.data with
  | nil => exact String.ext hd
  | cons a l =>
    rw [hd] at hdata
    simp at hdata

/-- C7 (amended): whenever `process_document` on a found document returns
failure, the document is left with status `failed`, the error message
stored is exactly `str(e)[:1000]` for the exception `e` that the failing
step raised (so it has at most 1000 characters and is non-empty whenever
the exception's own message is non-empty), and `processed_at` is set to
the environment's current time; the failure is returned as a flag, never
raised.  The final disjunction identifies the raising step: extraction
error, empty/whitespace-only extracted text, empty chunk list, embedding
error, or upsert error. -/
theorem process_document_failure_recorded (env : ProcEnv) (doc : PDoc) (res : Option PDoc)
    (h : process_document env (some doc) = (false, res)) :
    ∃ d e, res = some d ∧ d.status = "failed" ∧
      d.error_message = some (truncate1000 e) ∧
      (truncate1000 e).length ≤ 1000 ∧
      (e ≠ "" → truncate1000 e ≠ "") ∧
      d.processed_at = some env.now ∧
      (env.extract_text doc.file_path = .error e ∨
        (∃ text, env.extract_text doc.file_path = .ok text ∧
          text.data.all isPySpace = true ∧
          e = "No text could be extracted from document") ∨
        (∃ text, env.extract_text doc.file_path = .ok text ∧
          (docChunks text).isEmpty = true ∧
          e = "No chunks generated from text") ∨
        (∃ text, env.extract_text doc.file_path = .ok text ∧
          env.generate_embeddings (docChunks text) = .error e) ∨
        (∃ text embeddings, env.extract_text doc.file_path = .ok text ∧
          env.generate_embeddings (docChunks text) = .ok embeddings ∧
          env.store_embeddings doc.tenant_id doc.id (docChunks text) embeddings = .error e)) := by
  simp only [process_document] at h
  split at h
  · rename_i e heq
    exact ⟨_, e, failDoc_eq _ _ _ _ h, rfl, rfl, truncate1000_length e,
      fun he => truncate1000_ne_empty e he, rfl, Or.inl heq⟩
  · rename_i text heq
    split at h
    · rename_i hsp
      exact ⟨_, _, failDoc_eq _ _ _ _ h, rfl, rfl, truncate1000_length _,
        fun he => truncate1000_ne_empty _ he, rfl,
        Or.inr (Or.inl ⟨text, heq, hsp, rfl⟩)⟩
    · split at h
      · rename_i hchunks
        exact ⟨_, _, failDoc_eq _ _ _ _ h, rfl, rfl, truncate1000_length _,
          fun he => truncate1000_ne_empty _ he, rfl,
          Or.inr (Or.inr (Or.inl ⟨text, heq, hchunks, rfl⟩))⟩
      · split at h
        · rename_i e hemb
          exact ⟨_, e, failDoc_eq _ _ _ _ h, rfl, rfl, truncate1000_length e,
            fun he => truncate1000_ne_empty e he, rfl,
            Or.inr (Or.inr (Or.inr (Or.inl ⟨text, heq, hemb⟩)))⟩
        · rename_i embeddings hemb
          split at h
          · rename_i e hstore
            exact ⟨_, e, failDoc_eq _ _ _ _ h, rfl, rfl, truncate1000_length e,
              fun he => truncate1000_ne_empty e he, rfl,
              Or.inr (Or.inr (Or.inr (Or.inr ⟨text, embeddings, heq, hemb, hstore⟩)))⟩
          · exact absurd (congrArg Prod.fst h) (by simp)

def demoDoc : PDoc :=
  { id := "doc-1", tenant_id := "t1", file_path := "notes.txt", status := "queued",
    chunks_count := 0, processed_at := none, error_message := none }

def procEnvBoom : ProcEnv :=
  { extract_text := fun _ => .error "boom"
    generate_embeddings := fun _ => .ok []
    store_embeddings := fun _ _ _ _ => .ok ()
    now := 42 }

/-- Witness for C7's amended theorem on a concrete failing environment. -/
theorem process_document_failure_recorded_witness :
    ∃ d e, (process_document procEnvBoom (some demoDoc)).2 = some d ∧
      d.status = "failed" ∧
      d.error_message = some (truncate1000 e) ∧
      (truncate1000 e).length ≤ 1000 ∧
      (e ≠ "" → truncate1000 e ≠ "") ∧
      d.processed_at = some procEnvBoom.now ∧
      (procEnvBoom.extract_text demoDoc.file_path = .error e ∨
        (∃ text, procEnvBoom.extract_text demoDoc.file_path = .ok text ∧
          text.data.all isPySpace = true ∧
          e = "No text could be extracted from document") ∨
        (∃ text, procEnvBoom.extract_text demoDoc.file_path = .ok text ∧
          (docChunks text).isEmpty = true ∧
          e = "No chunks generated from text") ∨
        (∃ text, procEnvBoom.extract_text demoDoc.file_path = .ok text ∧
          procEnvBoom.generate_embeddings (docChunks text) = .error e) ∨
        (∃ text embeddings, procEnvBoom.extract_text demoDoc.file_path = .ok text ∧
          procEnvBoom.generate_embeddings (docChunks text) = .ok embeddings ∧
          procEnvBoom.store_embeddings demoDoc.tenant_id demoDoc.id (docChunks text)
            embeddings = .error e)) :=
  process_document_failure_recorded procEnvBoom demoDoc _ (by decide)

def procEnvEmptyMsg : ProcEnv :=
  { extract_text := fun _ => .error ""
    generate_embeddings := fun _ => .ok []
    store_embeddings := fun _ _ _ _ => .ok ()
    now := 42 }

/-- C7 (counterexample to "non-empty"): a Python exception whose `str` is
empty (e.g. `Exception()`) is stored as the empty string — the failure
path stores `str(e)[:1000]` verbatim and never guarantees a non-empty
message. -/
theorem process_document_stores_empty_message :
    (process_document procEnvEmptyMsg (some demoDoc)).2 =
      some { demoDoc with status := "failed", error_message := some "",
                          processed_at := some 42 } ∧
    ((process_document procEnvEmptyMsg (some demoDoc)).2.bind PDoc.error_message) = some "" :=
  ⟨by decide, by decide⟩

/-! ## Query cache key (`app/services/cache.py`, `get_cache_key`)

`hashlib.sha256(query_text.encode()).hexdigest()` is embedded as a full
executable SHA-256 (FIPS 180-4) over the UTF-8 bytes of the question.
Bytes and 32-bit words are `Nat`, reduced mod `2^32` where the algorithm
wraps. -/

/-- UTF-8 encoding of one code point (what Python `str.encode()` does). -/
def utf8Bytes (c : Char) : List Nat :=
  if c.toNat < 128 then [c.toNat]
  else if c.toNat < 2048 then [192 + c.toNat / 64, 128 + c.toNat % 64]
  else if c.toNat < 65536 then
    [224 + c.toNat / 4096, 128 + c.toNat / 64 % 64, 128 + c.toNat % 64]
  else
    [240 + c.toNat / 262144, 128 + c.toNat / 4096 % 64, 128 + c.toNat / 64 % 64,
     128 + c.toNat % 64]

def strBytes (s : String) : List Nat := s.data.flatMap utf8Bytes

def w32 (x : Nat) : Nat := x % 4294967296

def rotr (n x : Nat) : Nat := w32 (x / 2 ^ n + x % 2 ^ n * 2 ^ (32 - n))

def shr (n x : Nat) : Nat := x / 2 ^ n

/-- Bitwise complement on 32-bit words. -/
def bnot32 (x : Nat) : Nat := 4294967295 - x

def chF (x y z : Nat) : Nat := (x &&& y) ^^^ (bnot32 x &&& z)

def majF (x y z : Nat) : Nat := (x &&& y) ^^^ (x &&& z) ^^^ (y &&& z)

def bigSigma0 (x : Nat) : Nat := rotr 2 x ^^^ rotr 13 x ^^^ rotr 22 x

def bigSigma1 (x : Nat) : Nat := rotr 6 x ^^^ rotr 11 x ^^^ rotr 25 x

def smallSigma0 (x : Nat) : Nat := rotr 7 x ^^^ rotr 18 x ^^^ shr 3 x

def smallSigma1 (x : Nat) : Nat := rotr 17 x ^^^ rotr 19 x ^^^ shr 10 x

/-- The 64 round constants of FIPS 180-4 (fractional cube roots of the
first 64 primes), written in decimal. -/
def shaK : List Nat :=
  [1116352408, 1899447441, 3049323471, 3921009573, 961987163,
   1508970993, 2453635748, 2870763221, 3624381080, 310598401,
   607225278, 1426881987, 1925078388, 2162078206, 2614888103,
   3248222580, 3835390401, 4022224774, 264347078, 604807628,
   770255983, 1249150122, 1555081692, 1996064986, 2554220882,
   2821834349, 2952996808, 3210313671, 3336571891, 3584528711,
   113926993, 338241895, 666307205, 773529912, 1294757372,
   1396182291, 1695183700, 1986661051, 2177026350, 2456956037,
   2730485921, 2820302411, 3259730800, 3345764771, 3516065817,
   3600352804, 4094571909, 275423344, 430227734, 506948616,
   659060556, 883997877, 958139571, 1322822218, 1537002063,
   1747873779, 1955562222, 2024104815, 2227730452, 2361852424,
   2428436474, 2756734187, 3204031479, 3329325298]

/-- The initial hash state of FIPS 180-4 (fractional square roots of the
first 8 primes), written in decimal. -/
def shaH0 : List Nat :=
  [1779033703, 3144134277, 1013904242, 2773480762,
   1359893119, 2600822924, 528734635, 1541459225]

/-- Big-endian 8-byte encoding of the bit length. -/
def be64 (n : Nat) : List Nat :=
  [n / 2 ^ 56 % 256, n / 2 ^ 48 % 256, n / 2 ^ 40 % 256, n / 2 ^ 32 % 256,
   n / 2 ^ 24 % 256, n / 2 ^ 16 % 256, n / 2 ^ 8 % 256, n % 256]

/-- Big-endian 4-byte encoding of a 32-bit word. -/
def be32 (n : Nat) : List Nat :=
  [n / 16777216 % 256, n / 65536 % 256, n / 256 % 256, n % 256]

/-- Append `0x80`, zero-pad to 56 mod 64, append the 64-bit bit length. -/
def shaPad (msg : List Nat) : List Nat :=
  msg ++ 128 :: List.replicate ((119 - msg.length % 64) % 64) 0 ++ be64 (8 * msg.length)

/-- Split into 64-byte blocks (fuel-bounded; one fuel per block). -/
def toBlocks : Nat → List Nat → List (List Nat)
  | 0, _ => []
  | _ + 1, [] => []
  | fuel + 1, l => l.take 64 :: toBlocks fuel (l.drop 64)

/-- Combine bytes into big-endian 32-bit words. -/
def toWords : List Nat → List Nat
  | b0 :: b1 :: b2 :: b3 :: rest =>
      (b0 * 16777216 + b1 * 65536 + b2 * 256 + b3) :: toWords rest
  | _ => []

/-- Extend the 16 block words to 64 schedule words; the accumulator keeps
the words most-recent first, so `W[t-2]` is at index 1, `W[t-7]` at 6,
`W[t-15]` at 14 and `W[t-16]` at 15. -/
def extendW : Nat → List Nat → List Nat
  | 0, revW => revW
  | t + 1, revW =>
      extendW t (w32 (smallSigma1 (revW.getD 1 0) + revW.getD 6 0 +
        smallSigma0 (revW.getD 14 0) + revW.getD 15 0) :: revW)

def messageSchedule (block : List Nat) : List Nat :=
  (extendW 48 (toWords block).reverse).reverse

/-- One round of the compression function on the state `[a..h]`. -/
def compressStep : List Nat → Nat × Nat → List Nat
  | [a, b, c, d, e, f, g, h], kw =>
      [w32 (w32 (h + bigSigma1 e + chF e f g + kw.1 + kw.2) + w32 (bigSigma0 a + majF a b c)),
       a, b, c,
       w32 (d + w32 (h + bigSigma1 e + chF e f g + kw.1 + kw.2)),
       e, f, g]
  | st, _ => st

def processBlock (h : List Nat) (block : List Nat) : List Nat :=
  (h.zip ((shaK.zip (messageSchedule block)).foldl compressStep h)).map
    (fun p => w32 (p.1 + p.2))

/-- SHA-256 digest (32 bytes) of a byte string. -/
def sha256Bytes (msg : List Nat) : List Nat :=
  (((toBlocks (msg.length / 64 + 2) (shaPad msg)).foldl processBlock shaH0).map be32).flatten

def hexChar (n : Nat) : Char := if n < 10 then Char.ofNat (48 + n) else Char.ofNat (87 + n)

def byteHex (b : Nat) : List Char := [hexChar (b / 16), hexChar (b % 16)]

/-- Embeds `hashlib.sha256(s.encode()).hexdigest()`. -/
def sha256_hexdigest (s : String) : String :=
  String.mk ((sha256Bytes (strBytes s)).flatMap byteHex)

/-- Embeds `get_cache_key(tenant_id, query_text)`: hash the query, keep the first
16 hex characters, and join with the fixed namespace prefix and the tenant
id. -/
def get_cache_key (tenant_id query_text : String) : String :=
  "query:" ++ tenant_id ++ ":" ++ (sha256_hexdigest query_text).take 16

/-- Sanity anchor for the hash embedding: the FIPS 180-4 test vector for
the message `"abc"`. -/
theorem sha256_abc :
    sha256_hexdigest "abc" =
      "ba7816bf8f01cfea414140de5dae2223b00361a396177a9cb410ff61f20015ad" := by
  decide

/-- C9: the cache fingerprint is the pure function
`"query:" ++ tenant ++ ":" ++ sha256(question)[:16]` — a fixed namespace
prefix, the tenant id, and the truncated hash of the question (determinism
is inherent: it is a function of exactly those two arguments) — and two
different tenant ids with the same question always yield different keys. -/
theorem get_cache_key_shape_and_isolation :
    (∀ tenant_id query_text, get_cache_key tenant_id query_text =
      "query:" ++ tenant_id ++ ":" ++ (sha256_hexdigest query_text).take 16) ∧
    (∀ t1 t2 q, t1 ≠ t2 → get_cache_key t1 q ≠ get_cache_key t2 q) := by
  constructor
  · intro tenant_id query_text
    rfl
  · intro t1 t2 q hne heq
    apply hne
    have h := congrArg String.data heq
    simp only [get_cache_key, String.data_append] at h
    exact String.ext (List.append_cancel_left
      (List.append_cancel_right (List.append_cancel_right h)))

/-- Witness for C9 at concrete tenants and question. -/
theorem get_cache_key_shape_and_isolation_witness :
    get_cache_key "tenant-A" "Same question" =
      "query:" ++ "tenant-A" ++ ":" ++ (sha256_hexdigest "Same question").take 16 ∧
    get_cache_key "tenant-A" "Same question" ≠ get_cache_key "tenant-B" "Same question" :=
  ⟨get_cache_key_shape_and_isolation.1 "tenant-A" "Same question",
    get_cache_key_shape_and_isolation.2 "tenant-A" "tenant-B" "Same question" (by decide)⟩

end DocuQuery
